import Mathlib

/-!
Verification of the geography quiz game core (src/App.tsx, src/types.ts,
src/constants.ts): the scoring engine, question selector, session state
machine handlers and leaderboard store, shallowly embedded in Lean.
Scores are modelled as `Int` (the code allows negative scores), combo
counters as `Nat` (initialised to 0, only ever set to 0 or incremented),
and the ambient random draws of the code (`Math.random`) are passed in as
explicit parameters so that properties quantify over every possible draw.
-/

namespace Quiz

/-- From src/types.ts: `Option` (an answer choice). Named `AnswerOption`
to avoid clashing with Lean's `Option`. -/
structure AnswerOption where
  id : String
  label : String
  text : String
  isCorrect : Bool
deriving Repr, DecidableEq

/-- From src/types.ts: `Question`. `region` is optional there
(`region?: string`). -/
structure Question where
  id : Int
  country : String
  capital : String
  flagCode : String
  flagUrl : String
  questionText : String
  isCapitalQuestion : Bool
  options : List AnswerOption
  region : Option String
deriving Repr, DecidableEq

/-- From src/types.ts: `GameStatus`. -/
inductive GameStatus where
  | start
  | difficulty_select
  | playing
  | finished
  | leaderboard
deriving Repr, DecidableEq

/-- From src/types.ts: `GameMode`. -/
inductive GameMode where
  | single
  | pve
deriving Repr, DecidableEq

/-- From src/types.ts: `GameState`. Difficulty (1–4) is a plain `Nat`. -/
structure GameState where
  status : GameStatus
  gameMode : GameMode
  difficulty : Nat
  score : Int
  computerScore : Int
  consecutiveCorrect : Nat
  computerConsecutiveCorrect : Nat
  currentQuestionIndex : Nat
  totalQuestions : Nat
  timeLeft : Int
  selectedOptionId : Option String
  isAnswerRevealed : Bool
  isPaused : Bool
  isHintActive : Bool
  isExitConfirmOpen : Bool
deriving Repr, DecidableEq

/-- From src/constants.ts: `GAME_DURATION_SECONDS = 10`. -/
def GAME_DURATION_SECONDS : Int := 10

/-- From src/constants.ts: `QUESTIONS_PER_GAME = 20`. -/
def QUESTIONS_PER_GAME : Nat := 20

/-- From src/App.tsx: `MAX_LEADERBOARD_ENTRIES = 10`. -/
def MAX_LEADERBOARD_ENTRIES : Nat := 10

/-- Result record of the scoring function (`{ score, consecutive }`). -/
structure ScoreState where
  score : Int
  consecutive : Nat
deriving Repr, DecidableEq

/-- From src/App.tsx lines 109–135: `calculateNewScoreState`, the unified
scoring logic shared by the player and the computer opponent. -/
def calculateNewScoreState (currentScore : Int) (currentConsecutive : Nat)
    (isCorrect : Bool) (isHintUsed : Bool) : ScoreState :=
  if isCorrect then
    if isHintUsed then
      { score := currentScore, consecutive := 0 }
    else
      let comboBonus : Int := (currentConsecutive : Int) * 25
      { score := currentScore + (100 + comboBonus),
        consecutive := currentConsecutive + 1 }
  else
    { score := currentScore - 50, consecutive := 0 }

/-- From src/types.ts: `LeaderboardEntry`. -/
structure LeaderboardEntry where
  name : String
  score : Int
  timestamp : Int
deriving Repr, DecidableEq

/-- The comparator of src/App.tsx line 378, `(a, b) => b.score - a.score`,
as the Boolean "a may precede b" relation of a descending stable sort
(JavaScript `Array.prototype.sort` is stable). -/
def entryDesc (a b : LeaderboardEntry) : Bool := decide (b.score ≤ a.score)

/-- JavaScript `String.prototype.trim` — strips leading and trailing
whitespace — modelled over the character list. -/
def jsTrim (s : String) : String :=
  ⟨(((s.data.dropWhile Char.isWhitespace).reverse).dropWhile
      Char.isWhitespace).reverse⟩

/-- JavaScript `substring(0, n)` — the first `n` characters. -/
def jsTake (s : String) (n : Nat) : String := ⟨s.data.take n⟩

/-- From src/App.tsx lines 370–374: the new entry built by
`handleSaveScore` — `playerName.trim().substring(0, 10)` with the current
score and timestamp. -/
def mkEntry (playerName : String) (score ts : Int) : LeaderboardEntry :=
  { name := jsTake (jsTrim playerName) 10, score := score, timestamp := ts }

/-- From src/App.tsx lines 366–389: `handleSaveScore`. The persisted
leaderboard and the inputs read from component state (`playerName`,
`gameState.score`, `Date.now()`) are explicit arguments; the result is
the list passed to `saveLeaderboard`, or `none` when the handler returns
early on a blank trimmed name (persisting nothing and mutating nothing). -/
def handleSaveScore (board : List LeaderboardEntry) (playerName : String)
    (score ts : Int) : Option (List LeaderboardEntry) :=
  if jsTrim playerName = "" then none
  else
    some (((board ++ [mkEntry playerName score ts]).mergeSort entryDesc).take
      MAX_LEADERBOARD_ENTRIES)

/-- The two persisted values of the leaderboard store
(src/App.tsx lines 12–13): the entry list under `quiz_leaderboard`
(`getLeaderboard` yields `[]` when the key is absent, so a removed key is
modelled as the empty list) and the last-reset marker under
`quiz_last_reset` (`none` when absent). -/
structure Store where
  leaderboard : List LeaderboardEntry
  lastReset : Option Int
deriving Repr, DecidableEq

def msPerDay : Int := 86400000

/-- From src/App.tsx lines 156–161: the `lastMonday` computation of
`checkWeeklyReset`. `now.getDay()` is `weekday` (0 = Sunday … 6 =
Saturday) and `msSinceMidnight` is the time of day of `now` in local
milliseconds; `setDate(now.getDate() - distanceToMonday)` followed by
`setHours(0,0,0,0)` lands at local midnight `distanceToMonday` civil days
back, i.e. `now - distanceToMonday * msPerDay - msSinceMidnight` (days
are modelled as a fixed 86400000 ms; daylight-saving shifts are outside
the model). -/
def lastMondayTime (nowTime : Int) (weekday : Nat) (msSinceMidnight : Int) : Int :=
  nowTime - (((weekday + 6) % 7 : Nat) : Int) * msPerDay - msSinceMidnight

/-- From src/App.tsx lines 152–169: `checkWeeklyReset`. Reads the stored
marker; when it is absent or strictly before the most recent Monday
00:00, removes the leaderboard key and stores `now` as the marker;
otherwise leaves the store untouched. -/
def checkWeeklyReset (store : Store) (nowTime : Int) (weekday : Nat)
    (msSinceMidnight : Int) : Store :=
  match store.lastReset with
  | none => { leaderboard := [], lastReset := some nowTime }
  | some t =>
    if t < lastMondayTime nowTime weekday msSinceMidnight then
      { leaderboard := [], lastReset := some nowTime }
    else store

/-- From src/App.tsx line 171–177: `isHighScore`. -/
def isHighScore (score : Int) (board : List LeaderboardEntry) : Bool :=
  if score ≤ 0 then false
  else if board.length < MAX_LEADERBOARD_ENTRIES then true
  else match board.getLast? with
    | some last => decide (last.score < score)
    | none => true

/-- From src/App.tsx lines 184–200 (initial `useState`) and lines
337–359 (`handleRestartGame`, which writes the same record): the initial
game state. -/
def initialGameState : GameState :=
  { status := .start
    gameMode := .single
    difficulty := 2
    score := 0
    computerScore := 0
    consecutiveCorrect := 0
    computerConsecutiveCorrect := 0
    currentQuestionIndex := 0
    totalQuestions := QUESTIONS_PER_GAME
    timeLeft := GAME_DURATION_SECONDS
    selectedOptionId := none
    isAnswerRevealed := false
    isPaused := false
    isHintActive := false
    isExitConfirmOpen := false }

/-- From src/App.tsx lines 337–359: `handleRestartGame` — full reset of
the game state and of `activeQuestions`. -/
def handleRestartGame : GameState × List Question := (initialGameState, [])

/-- From src/App.tsx lines 398–401: `handleConfirmExit` — sets `status`
to `start`, closes the exit-confirmation flag, and empties
`activeQuestions`; no other field of the previous state is written. -/
def handleConfirmExit (s : GameState) : GameState × List Question :=
  ({ s with status := .start, isExitConfirmOpen := false }, [])

/-- From src/App.tsx lines 407–423: `handleNext`, the scheduled
post-reveal advance (fired by `setTimeout(() => handleNext(), 1500)` at
lines 463 and 530, with no cancellation and no guard on the state it
finds). -/
def handleNext (prev : GameState) : GameState :=
  let nextIndex := prev.currentQuestionIndex + 1
  if prev.totalQuestions ≤ nextIndex then { prev with status := .finished }
  else
    { prev with
      currentQuestionIndex := nextIndex
      timeLeft := GAME_DURATION_SECONDS
      selectedOptionId := none
      isAnswerRevealed := false
      isPaused := false
      isHintActive := false }

/-- From src/App.tsx lines 425–444: `executeAIAnswer`. `aiAnswered` is
`aiAnsweredRef.current` at call time and `isCorrect` is the
`Math.random() < config.accuracy` draw, both passed explicitly. -/
def executeAIAnswer (currentState : GameState) (aiAnswered isCorrect : Bool) :
    GameState :=
  if aiAnswered then currentState
  else
    let r := calculateNewScoreState currentState.computerScore
      currentState.computerConsecutiveCorrect isCorrect false
    { currentState with
      computerScore := r.score
      computerConsecutiveCorrect := r.consecutive }

/-- From src/App.tsx lines 453–462: the state update of the timeout
branch of the timer effect (which runs when `status = playing`, the
answer is not revealed, the game is neither paused nor exit-confirming,
and `timeLeft ≤ 0`): in pve mode the opponent is forced through
`executeAIAnswer` (with its accuracy-based random draw `aiCorrect`),
then the player's combo is zeroed, 50 points are deducted from the
player's score, and the answer is marked revealed. -/
def timeoutUpdate (prev : GameState) (aiAnswered aiCorrect : Bool) : GameState :=
  let nextState := if prev.gameMode = .pve then
      executeAIAnswer prev aiAnswered aiCorrect
    else prev
  { nextState with
    consecutiveCorrect := 0
    score := prev.score - 50
    isAnswerRevealed := true }

/-- From src/App.tsx line 557:
`activeQuestions[gameState.currentQuestionIndex] || activeQuestions[0]`
(a `Question` object is always truthy, so the fallback fires exactly
when the index is out of range). -/
def currentQuestionData (activeQuestions : List Question) (idx : Nat) :
    Option Question :=
  match activeQuestions.get? idx with
  | some q => some q
  | none => activeQuestions.get? 0

/-- From src/App.tsx lines 859–861 together with line 557: the question
rendered on the playing screen — `none` means the safety check returned
`null` (nothing rendered). Non-playing statuses render other screens and
are modelled as `none` here as well. -/
def renderedQuestion (s : GameState) (activeQuestions : List Question) :
    Option Question :=
  if s.status = .playing then currentQuestionData activeQuestions s.currentQuestionIndex
  else none

/-- From src/App.tsx line 87: `targetEastAsiaCount`. -/
def targetEastAsiaCount : Nat := 10

/-- From src/App.tsx lines 85–103: the selection loops of
`getWeightedQuestions`. Each loop walks a (shuffled) candidate list,
breaking once `selectedQuestions.length` reaches the limit, and pushes a
candidate only when its country is not yet in `selectedCountries`. The
`Set<string>` is modelled as the list of inserted countries. -/
def selectLoop (limit : Nat) :
    List Question → List Question → List String → List Question × List String
  | [], selected, countries => (selected, countries)
  | q :: rest, selected, countries =>
    if limit ≤ selected.length then (selected, countries)
    else if q.country ∈ countries then selectLoop limit rest selected countries
    else selectLoop limit rest (selected ++ [q]) (countries ++ [q.country])

/-- From src/App.tsx lines 69–106: `getWeightedQuestions`, with the three
Fisher–Yates `shuffle` calls replaced by oracle lists: `shuffledEastAsia`
and `shuffledOthers` stand for the shuffles of the two region filters of
the bank (constrained to be permutations of them in the theorems), and
the final `shuffle(selectedQuestions)` is an arbitrary permutation of
this function's result. -/
def getWeightedQuestionsCore (shuffledEastAsia shuffledOthers : List Question) :
    List Question :=
  let r1 := selectLoop targetEastAsiaCount shuffledEastAsia [] []
  (selectLoop QUESTIONS_PER_GAME shuffledOthers r1.1 r1.2).1

/-- The region predicate of src/App.tsx lines 70–71:
`q.region === 'EastAsia'`. -/
def isEastAsia (q : Question) : Bool := decide (q.region = some "EastAsia")

/-- A concrete mid-game state: pve, question 4, both parties at combo 0,
time expired, answer not yet revealed. -/
def exTimeoutState : GameState :=
  { initialGameState with
    status := .playing
    gameMode := .pve
    currentQuestionIndex := 3
    score := 150
    timeLeft := 0 }

/-- A concrete mid-game state with points and a streak on the board and
the exit-confirmation dialog open. -/
def exExitState : GameState :=
  { initialGameState with
    status := .playing
    score := 100
    consecutiveCorrect := 2
    currentQuestionIndex := 3
    timeLeft := 4
    isExitConfirmOpen := true }

/-- The state left behind by confirming exit from the last question
(index 19 of 20): status `start`, index untouched at 19. -/
def exStaleResetState : GameState :=
  (handleConfirmExit
    { initialGameState with
      status := .playing
      currentQuestionIndex := 19
      isExitConfirmOpen := true }).1

/-- A concrete question (region-tagged, two options, the first one
correct). -/
def exQuestion : Question :=
  { id := 1
    country := "Japan"
    capital := "Tokyo"
    flagCode := "jp"
    flagUrl := "jp.png"
    questionText := "q"
    isCapitalQuestion := true
    options := [{ id := "A", label := "A", text := "Japan", isCorrect := true },
                { id := "B", label := "B", text := "Korea", isCorrect := false }]
    region := some "EastAsia" }

/-- A playing state whose current question index (5) is past the end of
a one-question list. -/
def exOutOfRangeState : GameState :=
  { initialGameState with status := .playing, currentQuestionIndex := 5 }

/-- A region-tagged question with the given id and country (all other
fields as in `exQuestion`). -/
def mkQ (i : Int) (c : String) : Question :=
  { exQuestion with id := i, country := c }

/-- A 10-question, all-EastAsia bank with pairwise distinct countries. -/
def bank10 : List Question :=
  [mkQ 0 "c0", mkQ 1 "c1", mkQ 2 "c2", mkQ 3 "c3", mkQ 4 "c4",
   mkQ 5 "c5", mkQ 6 "c6", mkQ 7 "c7", mkQ 8 "c8", mkQ 9 "c9"]

end Quiz

namespace Quiz

/-- C1: the scoring function `calculateNewScoreState` matches the spec's
reference definition on every integer score and combo: correct without
hint adds `100 + 25*combo` and increments the combo; correct with hint
leaves the score unchanged and zeroes the combo; incorrect subtracts 50
(no floor at zero) and zeroes the combo. -/
theorem calculateNewScoreState_spec (score : Int) (combo : Nat) :
    calculateNewScoreState score combo true false
      = { score := score + 100 + 25 * (combo : Int), consecutive := combo + 1 } ∧
    calculateNewScoreState score combo true true
      = { score := score, consecutive := 0 } ∧
    calculateNewScoreState score combo false false
      = { score := score - 50, consecutive := 0 } ∧
    calculateNewScoreState score combo false true
      = { score := score - 50, consecutive := 0 } := by
  refine ⟨?_, rfl, rfl, rfl⟩
  simp [calculateNewScoreState]
  ring

/-- C2 counterexample: in pve, when the question times out before the
opponent's trigger fired, the timeout path calls `executeAIAnswer`, whose
correctness is an accuracy-based random draw — when that draw is correct
(here with opponent score 0 and combo 0), the opponent GAINS 100 points
and its combo becomes 1, rather than losing 50 with combo 0 as the claim
states. -/
theorem timeout_opponent_gains_on_correct_draw :
    exTimeoutState.gameMode = .pve ∧
    exTimeoutState.timeLeft = 0 ∧
    exTimeoutState.isAnswerRevealed = false ∧
    (timeoutUpdate exTimeoutState false true).computerScore = 100 ∧
    exTimeoutState.computerScore - 50 = -50 ∧
    (100 : Int) ≠ -50 ∧
    (timeoutUpdate exTimeoutState false true).computerConsecutiveCorrect = 1 := by
  refine ⟨rfl, rfl, rfl, rfl, rfl, by decide, rfl⟩

/-- C2 amended: in pve, if the timer reaches 0 before the opponent's
trigger has fired (the opponent has not answered this question), the
timeout path forces exactly one opponent answer through the same Scoring
Engine call (`calculateNewScoreState` with `hintUsed = false`), but with
the difficulty's accuracy-based random correctness draw rather than a
forced incorrect outcome: the opponent's score decreases by 50 and its
combo resets to 0 only when that draw is incorrect. -/
theorem timeout_opponent_forced_scoring (prev : GameState) (aiCorrect : Bool)
    (hm : prev.gameMode = .pve) (hp : prev.status = .playing)
    (ht : prev.timeLeft = 0) (hr : prev.isAnswerRevealed = false) :
    (timeoutUpdate prev false aiCorrect).computerScore
      = (calculateNewScoreState prev.computerScore
          prev.computerConsecutiveCorrect aiCorrect false).score ∧
    (timeoutUpdate prev false aiCorrect).computerConsecutiveCorrect
      = (calculateNewScoreState prev.computerScore
          prev.computerConsecutiveCorrect aiCorrect false).consecutive ∧
    (aiCorrect = false →
      (timeoutUpdate prev false aiCorrect).computerScore
        = prev.computerScore - 50 ∧
      (timeoutUpdate prev false aiCorrect).computerConsecutiveCorrect = 0) := by
  refine ⟨?_, ?_, ?_⟩ <;> simp [timeoutUpdate, hm, executeAIAnswer]
  rintro rfl
  simp [calculateNewScoreState]

/-- C2 amended witness: the amended statement at the concrete timeout
state with an incorrect draw. -/
theorem timeout_opponent_forced_scoring_witness :
    (timeoutUpdate exTimeoutState false false).computerScore
      = (calculateNewScoreState exTimeoutState.computerScore
          exTimeoutState.computerConsecutiveCorrect false false).score ∧
    (timeoutUpdate exTimeoutState false false).computerConsecutiveCorrect
      = (calculateNewScoreState exTimeoutState.computerScore
          exTimeoutState.computerConsecutiveCorrect false false).consecutive :=
  ⟨(timeout_opponent_forced_scoring exTimeoutState false rfl rfl rfl rfl).1,
   (timeout_opponent_forced_scoring exTimeoutState false rfl rfl rfl rfl).2.1⟩

/-- C3 counterexample: confirming exit from a playing state with 100
points leaves the score at 100 (and the question index at 3, combo at
2), so the resulting state is not the fresh initial state the claim
demands. -/
theorem handleConfirmExit_not_full_reset :
    (handleConfirmExit exExitState).1.score = 100 ∧
    (handleConfirmExit exExitState).1.consecutiveCorrect = 2 ∧
    (handleConfirmExit exExitState).1.currentQuestionIndex = 3 ∧
    (handleConfirmExit exExitState).1 ≠ initialGameState := by
  refine ⟨rfl, rfl, rfl, by decide⟩

/-- C3 amended: confirming an exit request sets the status to `start`,
closes the exit-confirmation flag and empties the active question list,
but leaves every other session field (mode, difficulty, scores, combos,
question index, timeLeft, selection, reveal/pause/hint flags) at its
previous value; the full reset to the initial state happens only when a
new game starts (`startPlaying`) or on `handleRestartGame`. -/
theorem handleConfirmExit_amended (s : GameState) :
    (handleConfirmExit s).1.status = .start ∧
    (handleConfirmExit s).1.isExitConfirmOpen = false ∧
    (handleConfirmExit s).2 = [] ∧
    (handleConfirmExit s).1.gameMode = s.gameMode ∧
    (handleConfirmExit s).1.difficulty = s.difficulty ∧
    (handleConfirmExit s).1.score = s.score ∧
    (handleConfirmExit s).1.computerScore = s.computerScore ∧
    (handleConfirmExit s).1.consecutiveCorrect = s.consecutiveCorrect ∧
    (handleConfirmExit s).1.computerConsecutiveCorrect
      = s.computerConsecutiveCorrect ∧
    (handleConfirmExit s).1.currentQuestionIndex = s.currentQuestionIndex ∧
    (handleConfirmExit s).1.totalQuestions = s.totalQuestions ∧
    (handleConfirmExit s).1.timeLeft = s.timeLeft ∧
    (handleConfirmExit s).1.selectedOptionId = s.selectedOptionId ∧
    (handleConfirmExit s).1.isAnswerRevealed = s.isAnswerRevealed ∧
    (handleConfirmExit s).1.isPaused = s.isPaused ∧
    (handleConfirmExit s).1.isHintActive = s.isHintActive := by
  refine ⟨rfl, rfl, rfl, rfl, rfl, rfl, rfl, rfl, rfl, rfl, rfl, rfl, rfl,
    rfl, rfl, rfl⟩

/-- C4 (evaluating the code at the failing input): `handleNext` carries
no generation or status guard, so a stale scheduled advance firing after
a reset is not a no-op. Confirming exit from the last question (index
19) leaves a `start` state that the stale advance flips to `finished`;
after a full restart the stale advance bumps the question index from 0
to 1. -/
theorem handleNext_stale_not_noop :
    exStaleResetState.status = .start ∧
    (handleNext exStaleResetState).status = .finished ∧
    handleNext exStaleResetState ≠ exStaleResetState ∧
    handleRestartGame.1.status = .start ∧
    (handleNext handleRestartGame.1).currentQuestionIndex = 1 ∧
    handleNext handleRestartGame.1 ≠ handleRestartGame.1 := by
  refine ⟨rfl, rfl, by decide, rfl, rfl, by decide⟩

/-- C5 counterexample: status `playing` with question index 5 and a
one-question list — index 5 has no corresponding question, yet the
fallback `|| activeQuestions[0]` silently substitutes the first question
instead of hitting the render-nothing guard. -/
theorem renderedQuestion_substitutes_first :
    exOutOfRangeState.status = .playing ∧
    ([exQuestion][exOutOfRangeState.currentQuestionIndex]? = none) ∧
    renderedQuestion exOutOfRangeState [exQuestion] = some exQuestion := by
  refine ⟨rfl, rfl, rfl⟩

/-- C5 amended: while `playing`, when the current question index has no
corresponding question, the render falls back to the FIRST question of
the list (silent substitution, no crash, no advance); only when the list
is empty (so index 0 is missing too) does the fatal guard fire and
render nothing. -/
theorem renderedQuestion_missing_index (s : GameState) (qs : List Question)
    (hp : s.status = .playing)
    (hmiss : qs[s.currentQuestionIndex]? = none) :
    renderedQuestion s qs = qs.head? ∧
    (qs = [] → renderedQuestion s qs = none) := by
  have h0 : qs[(0 : Nat)]? = qs.head? := by
    cases qs <;> simp
  constructor
  · simp [renderedQuestion, currentQuestionData, hp, hmiss, h0]
  · intro hnil
    subst hnil
    simp [renderedQuestion, currentQuestionData, hp]

/-- C5 amended witness: the amended statement at the concrete
out-of-range state and one-question list. -/
theorem renderedQuestion_missing_index_witness :
    renderedQuestion exOutOfRangeState [exQuestion] = [exQuestion].head? ∧
    (([exQuestion] : List Question) = [] →
      renderedQuestion exOutOfRangeState [exQuestion] = none) :=
  renderedQuestion_missing_index exOutOfRangeState [exQuestion] rfl rfl

/-- C9: the forced-timeout update applied to any playing, time-expired,
not-yet-revealed state decreases the player's score by exactly 50 and
resets the player's combo to 0 — identical to the incorrect-answer
branch of the Scoring Engine (`calculateNewScoreState` with
`isCorrect = false`) applied to the pre-timeout player state — and marks
the answer revealed. -/
theorem timeoutUpdate_player_refines_scoring (prev : GameState)
    (aiAnswered aiCorrect : Bool) (hp : prev.status = .playing)
    (ht : prev.timeLeft = 0) (hr : prev.isAnswerRevealed = false) :
    (timeoutUpdate prev aiAnswered aiCorrect).score = prev.score - 50 ∧
    (timeoutUpdate prev aiAnswered aiCorrect).consecutiveCorrect = 0 ∧
    (timeoutUpdate prev aiAnswered aiCorrect).score
      = (calculateNewScoreState prev.score prev.consecutiveCorrect false
          prev.isHintActive).score ∧
    (timeoutUpdate prev aiAnswered aiCorrect).consecutiveCorrect
      = (calculateNewScoreState prev.score prev.consecutiveCorrect false
          prev.isHintActive).consecutive ∧
    (timeoutUpdate prev aiAnswered aiCorrect).isAnswerRevealed = true := by
  refine ⟨rfl, rfl, rfl, rfl, rfl⟩

/-- C9 witness: the refinement at the concrete timeout state (score 150,
so the player ends at 100). -/
theorem timeoutUpdate_player_refines_scoring_witness :
    (timeoutUpdate exTimeoutState false true).score
      = exTimeoutState.score - 50 ∧
    (timeoutUpdate exTimeoutState false true).score
      = (calculateNewScoreState exTimeoutState.score
          exTimeoutState.consecutiveCorrect false
          exTimeoutState.isHintActive).score ∧
    (timeoutUpdate exTimeoutState false true).consecutiveCorrect
      = (calculateNewScoreState exTimeoutState.score
          exTimeoutState.consecutiveCorrect false
          exTimeoutState.isHintActive).consecutive :=
  ⟨(timeoutUpdate_player_refines_scoring exTimeoutState false true rfl rfl rfl).1,
   (timeoutUpdate_player_refines_scoring exTimeoutState false true rfl rfl rfl).2.2.1,
   (timeoutUpdate_player_refines_scoring exTimeoutState false true rfl rfl rfl).2.2.2.1⟩

/-- C10: submitting a leaderboard score whose name trims to the empty
string is a rejected early return: nothing is appended, nothing is
persisted (`handleSaveScore` produces no list to save). -/
theorem handleSaveScore_blank_noop (board : List LeaderboardEntry)
    (name : String) (score ts : Int) (h : jsTrim name = "") :
    handleSaveScore board name score ts = none := by
  simp [handleSaveScore, h]

/-- C10 witness: a whitespace-only name is rejected on a nonempty
board. -/
theorem handleSaveScore_blank_noop_witness :
    handleSaveScore [{ name := "a", score := 5, timestamp := 0 }] "   " 7 3
      = none :=
  handleSaveScore_blank_noop _ "   " 7 3 (by decide)

/-- C8: `checkWeeklyReset` clears all leaderboard entries and records
the current time as the new marker exactly when the stored last-reset
timestamp is absent or strictly earlier than the most recent Monday
00:00 local time; when the stored timestamp is at or after that
boundary, the whole store (entries and marker) is left untouched. -/
theorem checkWeeklyReset_spec (store : Store) (nowTime : Int)
    (weekday : Nat) (msSinceMidnight : Int) :
    ((store.lastReset = none ∨
        ∃ t, store.lastReset = some t ∧
          t < lastMondayTime nowTime weekday msSinceMidnight) →
      checkWeeklyReset store nowTime weekday msSinceMidnight
        = { leaderboard := [], lastReset := some nowTime }) ∧
    (∀ t, store.lastReset = some t →
      lastMondayTime nowTime weekday msSinceMidnight ≤ t →
      checkWeeklyReset store nowTime weekday msSinceMidnight = store) := by
  constructor
  · rintro (h | ⟨t, ht, hlt⟩)
    · unfold checkWeeklyReset
      rw [h]
    · unfold checkWeeklyReset
      rw [ht]
      simp [hlt]
  · intro t ht hge
    unfold checkWeeklyReset
    rw [ht]
    simp [not_lt.mpr hge]

/-- C8 witness: with `now` 700000000 ms into the epoch week model on a
Wednesday at local midnight (boundary 527200000), a marker at 0 clears a
one-entry board and stores `now`, while a marker at 600000000 leaves the
store untouched. -/
theorem checkWeeklyReset_spec_witness :
    checkWeeklyReset
        { leaderboard := [{ name := "a", score := 5, timestamp := 1 }],
          lastReset := some 0 } 700000000 3 0
      = { leaderboard := [], lastReset := some 700000000 } ∧
    checkWeeklyReset
        { leaderboard := [{ name := "a", score := 5, timestamp := 1 }],
          lastReset := some 600000000 } 700000000 3 0
      = { leaderboard := [{ name := "a", score := 5, timestamp := 1 }],
          lastReset := some 600000000 } :=
  ⟨(checkWeeklyReset_spec _ 700000000 3 0).1
      (Or.inr ⟨0, rfl, by decide⟩),
   (checkWeeklyReset_spec
      { leaderboard := [{ name := "a", score := 5, timestamp := 1 }],
        lastReset := some 600000000 } 700000000 3 0).2 600000000 rfl
      (by decide)⟩

/-- C7: for every prior leaderboard content and submitted (name, score)
with a non-blank trimmed name, `handleSaveScore` persists a list of at
most 10 entries, sorted descending by score, each entry coming either
from the prior board or being the newly appended entry whose name is the
submitted name trimmed and truncated to 10 characters. -/
theorem handleSaveScore_spec (board : List LeaderboardEntry) (name : String)
    (score ts : Int) (h : jsTrim name ≠ "") :
    ∃ res, handleSaveScore board name score ts = some res ∧
      res.length ≤ MAX_LEADERBOARD_ENTRIES ∧
      res.Pairwise (fun a b => b.score ≤ a.score) ∧
      ∀ e ∈ res, e ∈ board ∨
        (e.name = jsTake (jsTrim name) 10 ∧ e.score = score ∧
          e.timestamp = ts) := by
  refine ⟨((board ++ [mkEntry name score ts]).mergeSort entryDesc).take
      MAX_LEADERBOARD_ENTRIES, by simp [handleSaveScore, h], ?_, ?_, ?_⟩
  · exact List.length_take_le _ _
  · have hs : ((board ++ [mkEntry name score ts]).mergeSort
        entryDesc).Pairwise (fun a b => entryDesc a b) := by
      apply List.sorted_mergeSort
      · intro a b c hab hbc
        simp only [entryDesc, decide_eq_true_eq] at hab hbc ⊢
        exact le_trans hbc hab
      · intro a b
        simp only [entryDesc]
        rcases le_total a.score b.score with hle | hle <;> simp [hle]
    have ht := hs.sublist (List.take_sublist MAX_LEADERBOARD_ENTRIES _)
    exact ht.imp (fun hab => by
      simpa [entryDesc, decide_eq_true_eq] using hab)
  · intro e he
    have h1 : e ∈ (board ++ [mkEntry name score ts]).mergeSort entryDesc :=
      (List.take_sublist _ _).mem he
    rw [List.mem_mergeSort] at h1
    rcases List.mem_append.mp h1 with hb | hn
    · exact Or.inl hb
    · right
      simp only [List.mem_singleton] at hn
      subst hn
      exact ⟨rfl, rfl, rfl⟩

/-- C7 witness: submitting name " Alexandria99 " (trims and truncates to
"Alexandria") with score 7 on the empty board. -/
theorem handleSaveScore_spec_witness :
    ∃ res, handleSaveScore [] " Alexandria99 " 7 3 = some res ∧
      res.length ≤ MAX_LEADERBOARD_ENTRIES ∧
      res.Pairwise (fun a b => b.score ≤ a.score) ∧
      ∀ e ∈ res, e ∈ ([] : List LeaderboardEntry) ∨
        (e.name = jsTake (jsTrim " Alexandria99 ") 10 ∧ e.score = 7 ∧
          e.timestamp = 3) :=
  handleSaveScore_spec [] " Alexandria99 " 7 3 (by decide)

/-- The selection loop never grows past its limit: if the accumulator is
within the limit, so is the result. -/
theorem selectLoop_length_le (limit : Nat) (qs : List Question)
    (sel : List Question) (c : List String) (h : sel.length ≤ limit) :
    (selectLoop limit qs sel c).1.length ≤ limit := by
  induction qs generalizing sel c with
  | nil => simpa [selectLoop] using h
  | cons q rest ih =>
    simp only [selectLoop]
    split
    · simpa using h
    · rename_i hlt
      split
      · exact ih sel c h
      · exact ih _ _ (by simp; omega)

/-- The selection loop maintains `selectedCountries` as exactly the
countries of `selectedQuestions`, without duplicates. -/
theorem selectLoop_countries (limit : Nat) (qs : List Question)
    (sel : List Question) (c : List String)
    (h1 : c = sel.map (fun q => q.country)) (h2 : c.Nodup) :
    (selectLoop limit qs sel c).2
      = (selectLoop limit qs sel c).1.map (fun q => q.country) ∧
    (selectLoop limit qs sel c).2.Nodup := by
  induction qs generalizing sel c with
  | nil => exact ⟨by simpa [selectLoop] using h1, by simpa [selectLoop] using h2⟩
  | cons q rest ih =>
    simp only [selectLoop]
    split
    · exact ⟨h1, h2⟩
    · split
      · exact ih sel c h1 h2
      · rename_i hmem
        refine ih _ _ (by simp [h1]) ?_
        simp only [List.nodup_append, h2, List.nodup_cons, List.not_mem_nil,
          not_false_iff, List.nodup_nil, and_true, true_and]
        intro a ha
        simp only [List.mem_singleton]
        intro hEq
        exact hmem (hEq ▸ ha)

/-- The selection loop adds at most `countP p` of its candidate list to
the accumulator's `countP p`. -/
theorem selectLoop_countP (limit : Nat) (p : Question → Bool)
    (qs : List Question) (sel : List Question) (c : List String) :
    (selectLoop limit qs sel c).1.countP p ≤ sel.countP p + qs.countP p := by
  induction qs generalizing sel c with
  | nil => simp [selectLoop]
  | cons q rest ih =>
    simp only [selectLoop]
    split
    · exact Nat.le_add_right _ _
    · split
      · have := ih sel c
        simp [List.countP_cons] at this ⊢
        omega
      · have := ih (sel ++ [q]) (c ++ [q.country])
        simp [List.countP_append, List.countP_cons] at this ⊢
        omega

/-- C6: for every question bank, every pair of shuffles of its EastAsia
and non-EastAsia filters, and every final shuffle of the selection, the
Question Selector's output has length at most the session size (20), no
two of its questions share a country, and at most 10 of its questions
are region-tagged EastAsia when at least 10 such questions are
available in the bank. -/
theorem getWeightedQuestions_spec (bank sEA sO output : List Question)
    (hEA : sEA.Perm (bank.filter isEastAsia))
    (hO : sO.Perm (bank.filter (fun q => !(isEastAsia q))))
    (hout : output.Perm (getWeightedQuestionsCore sEA sO)) :
    output.length ≤ QUESTIONS_PER_GAME ∧
    (output.map (fun q => q.country)).Nodup ∧
    (targetEastAsiaCount ≤ (bank.filter isEastAsia).length →
      output.countP isEastAsia ≤ targetEastAsiaCount) := by
  have len1 : (selectLoop targetEastAsiaCount sEA [] []).1.length
      ≤ targetEastAsiaCount :=
    selectLoop_length_le _ _ _ _ (by simp)
  have lenCore : (getWeightedQuestionsCore sEA sO).length
      ≤ QUESTIONS_PER_GAME := by
    unfold getWeightedQuestionsCore
    exact selectLoop_length_le _ _ _ _
      (le_trans len1 (by norm_num [targetEastAsiaCount, QUESTIONS_PER_GAME]))
  have hc1 := selectLoop_countries targetEastAsiaCount sEA [] [] (by simp)
    List.nodup_nil
  have hc2 := selectLoop_countries QUESTIONS_PER_GAME sO
    (selectLoop targetEastAsiaCount sEA [] []).1
    (selectLoop targetEastAsiaCount sEA [] []).2 hc1.1 hc1.2
  refine ⟨?_, ?_, ?_⟩
  · calc output.length = (getWeightedQuestionsCore sEA sO).length :=
          hout.length_eq
      _ ≤ QUESTIONS_PER_GAME := lenCore
  · have hnd : ((getWeightedQuestionsCore sEA sO).map
        (fun q => q.country)).Nodup := by
      unfold getWeightedQuestionsCore
      exact hc2.1 ▸ hc2.2
    exact ((hout.map (fun q => q.country)).nodup_iff).mpr hnd
  · intro _
    have hzero : sO.countP isEastAsia = 0 := by
      rw [hO.countP_eq]
      rw [List.countP_eq_zero]
      intro a ha
      have := List.of_mem_filter ha
      simp only [Bool.not_eq_true'] at this
      simp [this]
    have hcount : (getWeightedQuestionsCore sEA sO).countP isEastAsia
        ≤ targetEastAsiaCount := by
      unfold getWeightedQuestionsCore
      calc (selectLoop QUESTIONS_PER_GAME sO
              (selectLoop targetEastAsiaCount sEA [] []).1
              (selectLoop targetEastAsiaCount sEA [] []).2).1.countP isEastAsia
          ≤ (selectLoop targetEastAsiaCount sEA [] []).1.countP isEastAsia
              + sO.countP isEastAsia := selectLoop_countP _ _ _ _ _
        _ ≤ (selectLoop targetEastAsiaCount sEA [] []).1.length + 0 := by
            rw [hzero]
            exact Nat.add_le_add_right (List.countP_le_length _) 0
        _ ≤ targetEastAsiaCount := by simpa using len1
    rw [hout.countP_eq]
    exact hcount

/-- C6 witness: the all-EastAsia ten-country bank, with identity
shuffles, yields a selection within every bound. -/
theorem getWeightedQuestions_spec_witness :
    (getWeightedQuestionsCore bank10 []).length ≤ QUESTIONS_PER_GAME ∧
    ((getWeightedQuestionsCore bank10 []).map (fun q => q.country)).Nodup ∧
    (targetEastAsiaCount ≤ (bank10.filter isEastAsia).length →
      (getWeightedQuestionsCore bank10 []).countP isEastAsia
        ≤ targetEastAsiaCount) :=
  getWeightedQuestions_spec bank10 bank10 [] (getWeightedQuestionsCore bank10 [])
    (by decide) (by decide) (List.Perm.refl _)

end Quiz
